import Mathlib

/-!
# Verification of the Quizly quiz pipeline against its specification

Shallow embedding of the Quizly repository (a Django/DRF application that turns
a YouTube video into a stored multiple-choice quiz).  Pure string processing
(`validate_youtube_url`, `json.loads`) is translated function-by-function from
`quiz_app/api/services.py`; the stateful parts (Django ORM persistence, the
request handlers of `quiz_app/api/views.py`, filesystem effects of the
pipeline) are embedded as explicit state-passing functions over a `Store`
record, with the outcomes of the external collaborators (ffmpeg lookup,
yt-dlp download, Whisper, the LLM endpoint) supplied as environment fields.
-/

set_option autoImplicit false

namespace Quizly

/-! ## Character-list utilities (models of the Python string operations used) -/

/-- Model of Python `str.lower` (ASCII is all that host names need). -/
def lowerCL (l : List Char) : List Char := l.map Char.toLower

/-- `startsWithCL l p`: `l` begins with `p` (Python `str.startswith`). -/
def startsWithCL : List Char → List Char → Bool
  | _, [] => true
  | [], _ :: _ => false
  | a :: as, b :: bs => a = b && startsWithCL as bs

/-- Python substring test `needle in hay`. -/
def containsSub (needle : List Char) : List Char → Bool
  | [] => needle.isEmpty
  | c :: rest => startsWithCL (c :: rest) needle || containsSub needle rest

/-- Python `str.split(sep)` for a one-character separator: always returns at
least one (possibly empty) segment. -/
def splitOnChar (sep : Char) : List Char → List (List Char)
  | [] => [[]]
  | c :: rest =>
    match splitOnChar sep rest with
    | [] => [[]]
    | seg :: segs => if c = sep then [] :: seg :: segs else (c :: seg) :: segs

/-- Split at the first occurrence of `sep`: the part before it, and — when
`sep` occurs — the part after it (Python `str.partition` / `str.split(sep, 1)`). -/
def splitFirst (sep : Char) : List Char → List Char × Option (List Char)
  | [] => ([], none)
  | c :: rest =>
    if c = sep then ([], some rest)
    else
      let r := splitFirst sep rest
      (c :: r.1, r.2)

/-- The whitespace characters of Python `str.strip()` (ASCII part). -/
def isPyWs (c : Char) : Bool :=
  c = ' ' || c = '\t' || c = '\n' || c = '\r' || c = Char.ofNat 11 || c = Char.ofNat 12

/-- Python `str.strip()` on ASCII whitespace. -/
def stripWs (s : List Char) : List Char :=
  ((s.dropWhile isPyWs).reverse.dropWhile isPyWs).reverse

/-- Value of an ASCII hex digit (code points 48–57, 97–102, 65–70). -/
def hexVal (c : Char) : Option Nat :=
  let n := c.toNat
  if 48 ≤ n ∧ n ≤ 57 then some (n - 48)
  else if 97 ≤ n ∧ n ≤ 102 then some (n - 87)
  else if 65 ≤ n ∧ n ≤ 70 then some (n - 55)
  else none

/-! ## URL parsing (`urllib.parse`, the parts `validate_youtube_url` uses) -/

/-- The components of `urllib.parse.urlparse` that `validate_youtube_url`
reads (`params` and `fragment` are never consulted by the source). -/
structure ParsedUrl where
  scheme : List Char
  netloc : List Char
  path : List Char
  query : List Char
deriving Repr, DecidableEq

/-- A character allowed in a URL scheme after the first (letters, digits, `+-.`). -/
def isSchemeChar (c : Char) : Bool := c.isAlpha || c.isDigit || c = '+' || c = '-' || c = '.'

/-- Whether the text before the first `:` is a well-formed scheme. -/
def schemeOk : List Char → Bool
  | [] => false
  | c :: rest => c.isAlpha && rest.all isSchemeChar

/-- A character that terminates the netloc part (`/`, `?`, `#`). -/
def netlocStop (c : Char) : Bool := c = '/' || c = '?' || c = '#'

/-- Model of `urllib.parse.urlparse`: strip the fragment, split off a
well-formed scheme, read the netloc after `//` up to a delimiter, and split
the remainder into path and query at the first `?`. -/
def urlparse (url : List Char) : ParsedUrl :=
  let noFrag := (splitFirst '#' url).1
  let schemeRest : List Char × List Char :=
    match splitFirst ':' noFrag with
    | (pre, some post) => if schemeOk pre then (lowerCL pre, post) else ([], noFrag)
    | (_, none) => ([], noFrag)
  let netlocRest : List Char × List Char :=
    if startsWithCL schemeRest.2 ['/', '/'] then
      let r := schemeRest.2.drop 2
      (r.takeWhile (fun c => !netlocStop c), r.dropWhile (fun c => !netlocStop c))
    else ([], schemeRest.2)
  let pathQuery : List Char × List Char :=
    match splitFirst '?' netlocRest.2 with
    | (pre, some post) => (pre, post)
    | (pre, none) => (pre, [])
  ⟨schemeRest.1, netlocRest.1, pathQuery.1, pathQuery.2⟩

/-- Model of `urllib.parse.unquote_plus`: `+` becomes a space and `%hh`
percent-escapes are decoded once (malformed escapes are left as-is). -/
def unquotePlus : List Char → List Char
  | [] => []
  | '+' :: rest => ' ' :: unquotePlus rest
  | '%' :: a :: b :: rest2 =>
    match hexVal a, hexVal b with
    | some ha, some hb => Char.ofNat (16 * ha + hb) :: unquotePlus rest2
    | _, _ => '%' :: unquotePlus (a :: b :: rest2)
  | c :: rest => c :: unquotePlus rest

/-- Model of `urllib.parse.parse_qsl` with the defaults `validate_youtube_url`
relies on: pairs split on `&`, a pair without `=` or with a blank value is
dropped (`keep_blank_values=False`), names and values are unquoted. -/
def parseQsl (q : List Char) : List (List Char × List Char) :=
  (splitOnChar '&' q).foldr
    (fun pair acc =>
      if pair = [] then acc
      else
        match splitFirst '=' pair with
        | (_, none) => acc
        | (name, some value) =>
          if value = [] then acc
          else (unquotePlus name, unquotePlus value) :: acc)
    []

/-- `parse_qs(query).get("v", [None])[0]`: the first value bound to the key
`v`, with `[]` standing for Python's `None`/absence (the caller only ever
tests it for emptiness). -/
def qsFirstV (q : List Char) : List Char :=
  match (parseQsl q).find? (fun p => p.1 = ['v']) with
  | some p => p.2
  | none => []

/-! ## The URL normalizer (`validate_youtube_url`) -/

/-- `"youtu.be"` (the short-link domain tested with `in`). -/
def hostShort : List Char := "youtu.be".toList

/-- `"youtube.com"` (the main video-site domain tested with `in`). -/
def hostMain : List Char := "youtube.com".toList

/-- `"youtube-nocookie.com"` (the privacy-enhanced domain tested with `in`). -/
def hostNoCookie : List Char := "youtube-nocookie.com".toList

/-- The path segment `"watch"`. -/
def segWatch : List Char := "watch".toList

/-- The path segment `"shorts"`. -/
def segShorts : List Char := "shorts".toList

/-- The path segment `"embed"`. -/
def segEmbed : List Char := "embed".toList

/-- The four `ValueError`s `validate_youtube_url` can raise, one per message. -/
inductive UrlError where
  | missingVideoId      -- "Missing video id"
  | invalidShortsUrl    -- "Invalid shorts URL (missing id)"
  | unsupportedFormat   -- "Unsupported YouTube URL format"
  | notAYouTubeLink     -- "URL is not a YouTube link"
deriving Repr, DecidableEq

/-- `"https://www.youtube.com/watch?v="` as an explicit character list. -/
def watchStem : List Char :=
  ['h', 't', 't', 'p', 's', ':', '/', '/', 'w', 'w', 'w', '.', 'y', 'o', 'u', 't',
   'u', 'b', 'e', '.', 'c', 'o', 'm', '/', 'w', 'a', 't', 'c', 'h', '?', 'v', '=']

/-- `"https://www.youtube.com/shorts/"` as an explicit character list. -/
def shortsStem : List Char :=
  ['h', 't', 't', 'p', 's', ':', '/', '/', 'w', 'w', 'w', '.', 'y', 'o', 'u', 't',
   'u', 'b', 'e', '.', 'c', 'o', 'm', '/', 's', 'h', 'o', 'r', 't', 's', '/']

/-- The canonical watch form `f"https://www.youtube.com/watch?v={video_id}"`. -/
def watchForm (vid : List Char) : List Char := watchStem ++ vid

/-- The canonical shorts form `f"https://www.youtube.com/shorts/{video_id}"`. -/
def shortsForm (vid : List Char) : List Char := shortsStem ++ vid

/-- The inner helper `watch_url` of `validate_youtube_url`: an empty id raises
`ValueError("Missing video id")`, otherwise the watch form is returned. -/
def watchUrlOf (vid : List Char) : Except UrlError (List Char) :=
  if vid = [] then .error .missingVideoId else .ok (watchForm vid)

/-- The body of `validate_youtube_url` after `urlparse`, translated clause by
clause from `quiz_app/api/services.py`. -/
def validateParsed (p : ParsedUrl) : Except UrlError (List Char) :=
  let netloc := lowerCL p.netloc
  if containsSub hostShort netloc then
    watchUrlOf ((splitOnChar '/' (p.path.dropWhile (· = '/'))).headD [])
  else if containsSub hostMain netloc || containsSub hostNoCookie netloc then
    match (splitOnChar '/' p.path).filter (· ≠ []) with
    | [] => .error .unsupportedFormat
    | p0 :: rest =>
      if p0 = segWatch then watchUrlOf (qsFirstV p.query)
      else if p0 = segShorts then
        match rest with
        | [] => .error .invalidShortsUrl
        | vid :: _ => if vid = [] then .error .invalidShortsUrl else .ok (shortsForm vid)
      else if p0 = segEmbed then
        match rest with
        | [] => watchUrlOf []
        | vid :: _ => watchUrlOf vid
      else .error .unsupportedFormat
  else .error .notAYouTubeLink

/-- `validate_youtube_url` on a raw URL string. -/
def validate_youtube_url (url : List Char) : Except UrlError (List Char) :=
  validateParsed (urlparse url)

/-! ### The rule table of the specification (for the refinement claim C6) -/

/-- The nonempty segments of a path (the specification's notion of "path
segments"). -/
def pathSegments (path : List Char) : List (List Char) :=
  (splitOnChar '/' path).filter (· ≠ [])

/-- Modelled from the spec's rule table (§4.1): a second, independent
definition of the normalizer following the claim's words, to be compared with
`validateParsed`.  Row order is the claim's priority order; when the main host
carries no path segment at all the catch-all row (UnsupportedFormat) applies,
matching the reading that a missing first segment is not one of
`watch`/`shorts`/`embed`. -/
def ruleTableSpec (p : ParsedUrl) : Except UrlError (List Char) :=
  let host := lowerCL p.netloc
  let segs := pathSegments p.path
  if containsSub hostShort host then
    let vid := segs.headD []
    if vid = [] then .error .missingVideoId else .ok (watchForm vid)
  else if containsSub hostMain host || containsSub hostNoCookie host then
    if segs.headD [] = segWatch then
      let vid := qsFirstV p.query
      if vid = [] then .error .missingVideoId else .ok (watchForm vid)
    else if segs.headD [] = segShorts then
      match segs.get? 1 with
      | none => .error .invalidShortsUrl
      | some vid => if vid = [] then .error .invalidShortsUrl else .ok (shortsForm vid)
    else if segs.headD [] = segEmbed then
      match segs.get? 1 with
      | none => .error .missingVideoId
      | some vid => if vid = [] then .error .missingVideoId else .ok (watchForm vid)
    else .error .unsupportedFormat
  else .error .notAYouTubeLink

/-- Characters out of which YouTube video ids are actually built
(alphanumerics, `-`, `_`); none of them is special to URL or query parsing. -/
def plainChar (c : Char) : Bool := c.isAlphanum || c = '-' || c = '_'

/-! Named pieces of the canonical URLs, as character lists (used when a
canonical URL is fed back through `urlparse`). -/

/-- `"https"`. -/
def schemeHttps : List Char := "https".toList

/-- `"www.youtube.com"`. -/
def netlocYtb : List Char := "www.youtube.com".toList

/-- `"/watch"`. -/
def pathWatch : List Char := "/watch".toList

/-- `"/shorts/"`. -/
def pathShortsSlash : List Char := "/shorts/".toList

/-- `"//www.youtube.com/watch?v="` (what follows the scheme colon). -/
def colonTailW : List Char := "//www.youtube.com/watch?v=".toList

/-- `"//www.youtube.com/shorts/"`. -/
def colonTailS : List Char := "//www.youtube.com/shorts/".toList

/-- `"www.youtube.com/watch?v="` (after the `//`). -/
def hostPathW : List Char := "www.youtube.com/watch?v=".toList

/-- `"www.youtube.com/shorts/"`. -/
def hostPathS : List Char := "www.youtube.com/shorts/".toList

/-- `"/watch?v="` (path plus query of the watch form). -/
def pathQW : List Char := "/watch?v=".toList

/-! ## JSON values and a model of Python `json.loads`

`create_quiz_from_transcript` feeds the raw LLM response to `json.loads` and
returns whatever parses, so the pipeline model needs actual JSON parsing.
Numbers keep their integer part plus the raw fraction/exponent characters —
no claim depends on numeric values.  `NaN`/`Infinity` extensions, control
characters in strings and surrogate pairs are not modelled. -/

inductive Json where
  | null
  | bool (b : Bool)
  | num (intPart : Int) (fracExp : List Char)
  | str (s : List Char)
  | arr (elems : List Json)
  | obj (fields : List (List Char × Json))

/-- JSON whitespace (`json.loads` skips these between tokens). -/
def jsonWs (c : Char) : Bool := c = ' ' || c = '\t' || c = '\n' || c = '\r'

/-- Drop leading JSON whitespace. -/
def skipWs (l : List Char) : List Char := l.dropWhile jsonWs

/-- Four hex digits of a `\u` escape. -/
def parseHex4 : List Char → Option (Nat × List Char)
  | a :: b :: c :: d :: rest =>
    match hexVal a, hexVal b, hexVal c, hexVal d with
    | some ha, some hb, some hc, some hd =>
      some (4096 * ha + 256 * hb + 16 * hc + hd, rest)
    | _, _, _, _ => none
  | _ => none

/-- The single-character escapes of JSON (`\info` → decoded character), as the
code points Python's decoder substitutes. -/
def escTable : List (Char × Nat) :=
  [('"', 34), ('\\', 92), ('/', 47), ('b', 8), ('f', 12), ('n', 10), ('r', 13), ('t', 9)]

/-- Decode one escape name via `escTable`. -/
def escCharOf (e : Char) : Option Char :=
  (escTable.find? (fun p => p.1 = e)).map (fun p => Char.ofNat p.2)

/-- Body of a JSON string after the opening quote: the decoded characters and
the remainder after the closing quote. -/
def parseStringBody : Nat → List Char → Option (List Char × List Char)
  | 0, _ => none
  | _, [] => none
  | fuel + 1, c :: rest =>
    if c = '"' then some ([], rest)
    else if c = '\\' then
      match rest with
      | [] => none
      | e :: rest2 =>
        let esc : Option (Char × List Char) :=
          if e = 'u' then (parseHex4 rest2).map (fun p => (Char.ofNat p.1, p.2))
          else (escCharOf e).map (fun ch => (ch, rest2))
        match esc with
        | none => none
        | some (ch, rest3) =>
          match parseStringBody fuel rest3 with
          | none => none
          | some (s, rem) => some (ch :: s, rem)
    else
      match parseStringBody fuel rest with
      | none => none
      | some (s, rem) => some (c :: s, rem)

/-- Digits prefix and the rest. -/
def digitsOf (l : List Char) : List Char × List Char :=
  (l.takeWhile Char.isDigit, l.dropWhile Char.isDigit)

/-- A JSON number: optional `-`, integer digits, optional fraction and
exponent (kept as raw characters). -/
def parseNumber (l : List Char) : Option (Json × List Char) :=
  let signed : Bool × List Char := match l with | '-' :: r => (true, r) | _ => (false, l)
  let ds := digitsOf signed.2
  if ds.1 = [] then none
  else
    let iv : Int := ds.1.foldl (fun a c => a * 10 + (Int.ofNat (c.toNat - 48))) 0
    let iv := if signed.1 then -iv else iv
    let fr : Option (List Char × List Char) :=
      match ds.2 with
      | '.' :: r =>
        let fs := digitsOf r
        if fs.1 = [] then none else some ('.' :: fs.1, fs.2)
      | rest => some ([], rest)
    match fr with
    | none => none
    | some (fchars, l2) =>
      let ex : Option (List Char × List Char) :=
        match l2 with
        | 'e' :: r | 'E' :: r =>
          let se : List Char × List Char :=
            match r with
            | '+' :: r2 => (['+'], r2)
            | '-' :: r2 => (['-'], r2)
            | r2 => ([], r2)
          let es := digitsOf se.2
          if es.1 = [] then none else some ('e' :: se.1 ++ es.1, es.2)
        | rest => some ([], rest)
      match ex with
      | none => none
      | some (echars, l3) => some (.num iv (fchars ++ echars), l3)

mutual

/-- One JSON value (recursive descent, fuel-bounded). -/
def parseValue : Nat → List Char → Option (Json × List Char)
  | 0, _ => none
  | fuel + 1, l =>
    match skipWs l with
    | [] => none
    | c :: rest =>
      if c = '{' then
        match skipWs rest with
        | '}' :: rem => some (.obj [], rem)
        | _ => (parseMembers fuel rest).map (fun p => (Json.obj p.1, p.2))
      else if c = '[' then
        match skipWs rest with
        | ']' :: rem => some (.arr [], rem)
        | _ => (parseElems fuel rest).map (fun p => (Json.arr p.1, p.2))
      else if c = '"' then
        (parseStringBody (rest.length + 1) rest).map (fun p => (Json.str p.1, p.2))
      else if startsWithCL (c :: rest) "true".toList then some (.bool true, rest.drop 3)
      else if startsWithCL (c :: rest) "false".toList then some (.bool false, rest.drop 4)
      else if startsWithCL (c :: rest) "null".toList then some (.null, rest.drop 3)
      else parseNumber (c :: rest)

/-- Comma-separated array elements up to the closing bracket. -/
def parseElems : Nat → List Char → Option (List Json × List Char)
  | 0, _ => none
  | fuel + 1, l =>
    match parseValue fuel l with
    | none => none
    | some (v, r1) =>
      match skipWs r1 with
      | ',' :: r2 =>
        match parseElems fuel r2 with
        | none => none
        | some (vs, r3) => some (v :: vs, r3)
      | ']' :: r2 => some ([v], r2)
      | _ => none

/-- Comma-separated `"key": value` members up to the closing brace. -/
def parseMembers : Nat → List Char → Option (List (List Char × Json) × List Char)
  | 0, _ => none
  | fuel + 1, l =>
    match skipWs l with
    | '"' :: r0 =>
      match parseStringBody (r0.length + 1) r0 with
      | none => none
      | some (k, r1) =>
        match skipWs r1 with
        | ':' :: r2 =>
          match parseValue fuel r2 with
          | none => none
          | some (v, r3) =>
            match skipWs r3 with
            | ',' :: r4 =>
              match parseMembers fuel r4 with
              | none => none
              | some (ms, r5) => some ((k, v) :: ms, r5)
            | '}' :: r4 => some ([(k, v)], r4)
            | _ => none
        | _ => none
    | _ => none

end

/-- Model of Python `json.loads`: parse one value with surrounding whitespace
and require the whole input consumed.  The fuel bound is generous for any
input whose nesting the recursion can express. -/
def jsonLoads (s : List Char) : Option Json :=
  match parseValue (2 * s.length + 2) s with
  | some (v, rem) => if skipWs rem = [] then some v else none
  | none => none

/-- Subscript `quiz_data[key]` on a `json.loads` result: a lookup in the
parsed object, later duplicate keys overriding earlier ones (Python dict
construction order); `none` models the uncaught `KeyError`/`TypeError` the
subscript raises on a missing key or a non-dict value. -/
def jsonGet (j : Json) (key : List Char) : Option Json :=
  match j with
  | .obj fields => ((fields.filter (fun f => f.1 = key)).getLast?).map (fun f => f.2)
  | _ => none

/-- A JSON string, if that is what the value is. -/
def asStr : Json → Option (List Char)
  | .str s => some s
  | _ => none

/-! ## The quiz generator (`create_quiz_from_transcript`) -/

/-- The `ValueError` raised when the LLM response does not parse: it carries
the parse diagnostic with the first 1000 characters of the raw response. -/
inductive GenError where
  | parseFailure (snippet : List Char)

/-- The parsing/return tail of `create_quiz_from_transcript`: the raw
completion text is `json.loads`-parsed; on failure a `ValueError` carrying a
bounded snippet is raised; on success the parsed value is returned unchanged
(no shape validation of any kind happens here). -/
def create_quiz_from_transcript (responseText : List Char) : Except GenError Json :=
  match jsonLoads responseText with
  | some v => .ok v
  | none => .error (.parseFailure (responseText.take 1000))

/-- Whether a parsed response is a JSON object carrying the three keys the
view subscripts (`title`, `description`, `questions`). -/
def hasQuizKeys (j : Json) : Bool :=
  (jsonGet j "title".toList).isSome && (jsonGet j "description".toList).isSome
    && (jsonGet j "questions".toList).isSome

/-! ## Data model and serializer validation

`Quiz` and `Question` from `quiz_app/models.py`, and the validation that
`QuizCreationSerializer`/`QuestionSerializer` actually perform: DRF
`ModelSerializer` derives per-field checks from the model fields
(`CharField(max_length=...)` → required, non-blank after trimming, bounded;
`JSONField` → any JSON value; `TextField(blank=True)`/`URLField(blank=True)` →
blank allowed).  No cross-field check exists anywhere. -/

/-- One entry of the nested `questions` payload, already in the field shape
the `QuestionSerializer` declares. -/
structure QuestionData where
  question_title : List Char
  question_options : Json
  answer : List Char

/-- The payload `CreateQuizView.post` hands to `QuizCreationSerializer`. -/
structure QuizDraft where
  title : List Char
  description : List Char
  video_url : List Char
  questions : List QuestionData

/-- DRF `CharField` validation as configured by a non-blank model field:
`trim_whitespace=True` (the default), `allow_blank=False`, `max_length` from
the model.  The trimmed value must be nonempty and within the bound. -/
def charFieldOk (maxLen : Nat) (s : List Char) : Bool :=
  !(stripWs s).isEmpty && (stripWs s).length ≤ maxLen

/-- Simplified model of Django's `URLValidator` behind `URLField(blank=True)`:
blank is allowed, otherwise an `http(s)`/`ftp(s)` scheme followed by a
nonempty remainder.  (The real validator is a large regex; every URL any
claim exercises passes both.) -/
def urlFieldOk (s : List Char) : Bool :=
  s.isEmpty ||
    ["http://", "https://", "ftp://", "ftps://"].any
      (fun p => startsWithCL s p.toList && decide (p.length < s.length))

/-- Everything `QuestionSerializer` validates about one question: the three
model fields' own checks.  `question_options` is a `JSONField`, so any JSON
value passes; there is no option-count, distinctness or answer-membership
check. -/
def questionFieldsOk (q : QuestionData) : Bool :=
  charFieldOk 500 q.question_title && charFieldOk 500 q.answer

/-- Everything `QuizCreationSerializer.is_valid` checks on a creation payload
(`description` is `blank=True`, hence unconstrained). -/
def draftFieldsOk (d : QuizDraft) : Bool :=
  charFieldOk 200 d.title && urlFieldOk d.video_url && d.questions.all questionFieldsOk

/-- Modelled from the spec (§3): the invariant the specification requires of
a question — exactly 4 pairwise-distinct option strings with the answer among
them.  This predicate deliberately follows the spec's words, to be compared
with what the code checks. -/
def specQuestionInvariant (q : QuestionData) : Bool :=
  match q.question_options with
  | Json.arr opts =>
    match opts.mapM asStr with
    | some ss => decide (ss.length = 4) && decide ss.Nodup && decide (q.answer ∈ ss)
    | none => false
  | _ => false

/-! ## The store and the persistence of a quiz (`QuizCreationSerializer.create`) -/

/-- A persisted `Question` row. -/
structure QuestionRow where
  quiz : Nat
  question_title : List Char
  question_options : Json
  answer : List Char

/-- A persisted `Quiz` row. -/
structure QuizRow where
  id : Nat
  title : List Char
  description : List Char
  video_url : List Char
  user : Nat
deriving Repr, DecidableEq

/-- The database state: quiz rows, question rows, and the next quiz primary
key. -/
structure Store where
  quizzes : List QuizRow
  questions : List QuestionRow
  nextId : Nat

/-- The empty database. -/
def emptyStore : Store := ⟨[], [], 0⟩

/-- The question row `Question.objects.create(quiz=quiz, **q)` writes
(DRF hands over trimmed `CharField` values). -/
def questionRowOf (qid : Nat) (q : QuestionData) : QuestionRow :=
  ⟨qid, stripWs q.question_title, q.question_options, stripWs q.answer⟩

/-- The loop `for q in questions_data: Question.objects.create(...)` under
Django's default autocommit: each insert commits on its own; `qFails i` says
whether the database fails the i-th insert, in which case the exception
propagates but the rows already written remain.  Returns whether the loop
completed, and the store as left behind. -/
def insertQuestions (qid : Nat) (qFails : Nat → Bool) :
    Nat → Store → List QuestionData → Bool × Store
  | _, st, [] => (true, st)
  | i, st, q :: qs =>
    if qFails i then (false, st)
    else
      insertQuestions qid qFails (i + 1)
        { st with questions := st.questions ++ [questionRowOf qid q] } qs

/-- `QuizCreationSerializer.create`: `Quiz.objects.create` commits the quiz
row, then the questions are inserted one by one.  There is no enclosing
transaction.  Returns the created quiz id on success and the store as left by
the call (also when an insert raised). -/
def serializerCreate (st : Store) (user : Nat) (d : QuizDraft) (qFails : Nat → Bool) :
    Option Nat × Store :=
  let qid := st.nextId
  let st1 : Store :=
    ⟨st.quizzes ++ [⟨qid, stripWs d.title, stripWs d.description, stripWs d.video_url, user⟩],
     st.questions, st.nextId + 1⟩
  match insertQuestions qid qFails 0 st1 d.questions with
  | (true, st2) => (some qid, st2)
  | (false, st2) => (none, st2)

/-- Outcome of the persistence step of `CreateQuizView.post`. -/
inductive PersistResult where
  | saved (qid : Nat)   -- `serializer.save()` completed
  | invalid             -- `is_valid(raise_exception=True)` raised (HTTP 400)
  | dbError             -- a database insert raised mid-way
deriving Repr, DecidableEq

/-- `serializer.is_valid(raise_exception=True)` followed by
`serializer.save()`: on a validation failure nothing touches the store. -/
def createQuizPersist (st : Store) (user : Nat) (d : QuizDraft) (qFails : Nat → Bool) :
    PersistResult × Store :=
  if draftFieldsOk d then
    match serializerCreate st user d qFails with
    | (some qid, st2) => (.saved qid, st2)
    | (none, st2) => (.dbError, st2)
  else (.invalid, st)

/-! ## The single-quiz views (`SingleQuizView.get/patch/delete`) -/

/-- `Quiz.objects.get(id=quiz_id, user=request.user)` — the lookup already
filters by the requesting user; `none` is `Quiz.DoesNotExist`. -/
def getByIdAndUser (st : Store) (qid user : Nat) : Option QuizRow :=
  st.quizzes.find? (fun q => q.id == qid && q.user == user)

/-- `SingleQuizView.get`: HTTP status and, on 200, the serialized quiz with
its questions. -/
def singleQuizGet (st : Store) (caller qid : Nat) :
    Nat × Option (QuizRow × List QuestionRow) :=
  match getByIdAndUser st qid caller with
  | some quiz =>
    if caller ≠ quiz.user then (403, none)
    else (200, some (quiz, st.questions.filter (fun q => q.quiz == quiz.id)))
  | none => (404, none)

/-- A PATCH body: exactly the fields supplied by the request. -/
structure PatchData where
  title : Option (List Char)
  description : Option (List Char)
  video_url : Option (List Char)
  questions : Option (List QuestionData)

/-- Validation of a partial payload: only the supplied fields are checked
(`partial=True` skips the absent ones). -/
def patchFieldsOk (p : PatchData) : Bool :=
  (match p.title with | some t => charFieldOk 200 t | none => true) &&
  (match p.video_url with | some u => urlFieldOk u | none => true) &&
  (match p.questions with | some qs => qs.all questionFieldsOk | none => true)

/-- Statuses `SingleQuizView.patch` can produce. -/
inductive PatchStatus where
  | ok200
  | badRequest400     -- a supplied field failed validation
  | forbidden403
  | notFound404
  | serverError500    -- AssertionError escaping the view
deriving Repr, DecidableEq

/-- `SingleQuizView.patch`.  `QuizCreationSerializer` defines `create` but not
`update`, so `serializer.save()` on an existing instance runs DRF's default
`ModelSerializer.update`, whose first step `raise_errors_on_nested_writes`
raises an `AssertionError` whenever the validated data contains the writable
nested `questions` field; otherwise the supplied flat fields are written
through `setattr` + `save()` and the question rows are never touched. -/
def singleQuizPatch (st : Store) (caller qid : Nat) (p : PatchData) :
    PatchStatus × Store :=
  match getByIdAndUser st qid caller with
  | none => (.notFound404, st)
  | some quiz =>
    if caller ≠ quiz.user then (.forbidden403, st)
    else if !patchFieldsOk p then (.badRequest400, st)
    else if p.questions.isSome then (.serverError500, st)
    else
      let quiz' : QuizRow :=
        { quiz with
          title := match p.title with | some t => stripWs t | none => quiz.title
          description := match p.description with | some ds => stripWs ds | none => quiz.description
          video_url := match p.video_url with | some u => stripWs u | none => quiz.video_url }
      (.ok200, { st with quizzes := st.quizzes.map (fun q => if q.id == quiz.id then quiz' else q) })

/-- `SingleQuizView.delete`: on success the quiz row goes away and the delete
cascades to its question rows. -/
def singleQuizDelete (st : Store) (caller qid : Nat) : Nat × Store :=
  match getByIdAndUser st qid caller with
  | none => (404, st)
  | some quiz =>
    if caller ≠ quiz.user then (403, st)
    else
      (204,
        ⟨st.quizzes.filter (fun q => !(q.id == quiz.id)),
         st.questions.filter (fun qr => !(qr.quiz == quiz.id)), st.nextId⟩)

/-! ## The audio acquirer (`download_audio_from_youtube`) -/

/-- What the execution environment answers to the acquirer. -/
structure AcqEnv where
  whichFfmpeg : Bool      -- `shutil.which("ffmpeg")` finds the tool
  whichFfmpegExe : Bool   -- `shutil.which("ffmpeg.exe")` finds the tool
  downloadRaises : Bool   -- `ydl.download([...])` raises (network/download failure)
deriving Repr, DecidableEq

/-- The observable outcome of one `download_audio_from_youtube` call. -/
structure AcqOutcome where
  downloadAttempted : Bool   -- `ydl.download` was entered
  errorLogged : Bool         -- the `except` branch printed the error
  fileWritten : Bool         -- the mp3 exists afterwards
deriving Repr, DecidableEq

/-- The one error the function raises. -/
inductive AcqError where
  | ffmpegNotFound   -- RuntimeError("ffmpeg not found in PATH. ...")
deriving Repr, DecidableEq

/-- `download_audio_from_youtube`: raises iff neither `ffmpeg` nor
`ffmpeg.exe` is on the search path, before any download; a download failure
is caught and printed inside the function and never re-raised. -/
def download_audio_from_youtube (env : AcqEnv) : Option AcqError × AcqOutcome :=
  if !env.whichFfmpeg && !env.whichFfmpegExe then
    (some .ffmpegNotFound, ⟨false, false, false⟩)
  else if env.downloadRaises then (none, ⟨true, true, false⟩)
  else (none, ⟨true, false, true⟩)

/-! ## The pipeline (`CreateQuizView.post`) -/

/-- The environment of one request: the URL in the body and the behaviour of
the external collaborators for this run. -/
structure PipelineEnv where
  url : List Char            -- `request.data.get('url')`
  whichFfmpeg : Bool
  whichFfmpegExe : Bool
  downloadSucceeds : Bool    -- yt-dlp produced the mp3
  transcribeWorks : Bool     -- Whisper loads and transcribes (given the file exists)
  llmResponse : List Char    -- `completion.choices[0].message.content`

/-- Exceptions that escape `CreateQuizView.post` (no handler exists in the
view, so each surfaces as an uncaught server error). -/
inductive Uncaught where
  | invalidUrl (e : UrlError)            -- ValueError from validate_youtube_url
  | ffmpegMissing                        -- RuntimeError from the acquirer
  | transcriptionError                   -- Whisper failure / audio file missing
  | generationParseError (snippet : List Char)  -- ValueError from create_quiz_from_transcript
  | keyError (key : List Char)           -- quiz_data[...] subscript failure

/-- The response of one `POST /createQuiz/` call. -/
inductive PResponse where
  | created (d : QuizDraft)    -- HTTP 201 after `serializer.save()`
  | validationError            -- HTTP 400: `is_valid(raise_exception=True)` raised
  | uncaught (e : Uncaught)    -- exception escaping the view

/-- What a run leaves behind. -/
structure PipelineOutcome where
  response : PResponse
  audioFileExists : Bool   -- the transient `temp_audio/<ts>.mp3` still exists

/-- Interpretation of one question entry of the parsed LLM JSON in the shape
`QuestionSerializer` declares (a missing or non-string member makes the
serializer reject the payload as a structured validation error). -/
def extractQuestion (j : Json) : Option QuestionData :=
  match jsonGet j "question_title".toList, jsonGet j "question_options".toList,
      jsonGet j "answer".toList with
  | some tj, some oj, some aj =>
    match asStr tj, asStr aj with
    | some t, some a => some ⟨t, oj, a⟩
    | _, _ => none
  | _, _, _ => none

/-- The serializer phase of the view: shape the three subscripted values and
the canonical URL into the `data` dict, validate, save.  Any shape mismatch
is a DRF validation error (HTTP 400), not an uncaught exception. -/
def serializerPhase (titleJ descJ : Json) (videoUrl : List Char) (questionsJ : Json) :
    PResponse :=
  match asStr titleJ, asStr descJ, questionsJ with
  | some t, some ds, Json.arr qjs =>
    match qjs.mapM extractQuestion with
    | some qs =>
      let d : QuizDraft := ⟨t, ds, videoUrl, qs⟩
      if draftFieldsOk d then .created d else .validationError
    | none => .validationError
  | _, _, _ => .validationError

/-- The `data = {...}` construction of the view: the three subscripts on the
parsed LLM value, in source order, each an uncaught `KeyError`/`TypeError`
when it fails, followed by the serializer phase. -/
def keyAccessPhase (quizData : Json) (canonicalUrl : List Char) : PResponse :=
  match jsonGet quizData "title".toList with
  | none => .uncaught (.keyError "title".toList)
  | some tj =>
    match jsonGet quizData "description".toList with
    | none => .uncaught (.keyError "description".toList)
    | some dj =>
      match jsonGet quizData "questions".toList with
      | none => .uncaught (.keyError "questions".toList)
      | some qj => serializerPhase tj dj canonicalUrl qj

/-- `CreateQuizView.post`, statement by statement.  The transient audio path
is `temp_audio/<unix-seconds>`; `audioFileExists` tracks whether
`<path>.mp3` exists when the run ends.  `cleanup_temp_files` is called at
exactly one place: after quiz generation succeeded, before the serializer
runs. -/
def createQuizPost (env : PipelineEnv) : PipelineOutcome :=
  match validate_youtube_url env.url with
  | .error e => ⟨.uncaught (.invalidUrl e), false⟩
  | .ok canonicalUrl =>
    if !env.whichFfmpeg && !env.whichFfmpegExe then ⟨.uncaught .ffmpegMissing, false⟩
    else
      -- a download failure is caught and printed inside the acquirer;
      -- the file exists afterwards iff the download succeeded
      let fileNow := env.downloadSucceeds
      if !(fileNow && env.transcribeWorks) then
        -- whisper raises: the audio file is missing, or transcription failed
        ⟨.uncaught .transcriptionError, fileNow⟩
      else
        match create_quiz_from_transcript env.llmResponse with
        | .error (.parseFailure s) => ⟨.uncaught (.generationParseError s), fileNow⟩
        | .ok quizData =>
          -- cleanup_temp_files(audio_path + ".mp3"): best effort, success path only
          ⟨keyAccessPhase quizData canonicalUrl, false⟩

/-- Whether a run got the transient audio file written at all (URL accepted,
toolchain present, download succeeded). -/
def fileCreated (env : PipelineEnv) : Bool :=
  (match validate_youtube_url env.url with | .ok _ => true | .error _ => false)
    && (env.whichFfmpeg || env.whichFfmpegExe) && env.downloadSucceeds

/-! ## Concrete instances used by counterexamples and witnesses -/

/-- A question with three options (two of them equal) whose answer is not
among them — it violates every part of the spec's invariant. -/
def badQuestion : QuestionData :=
  ⟨"Capital of France?".toList,
   Json.arr [Json.str "London".toList, Json.str "London".toList, Json.str "Berlin".toList],
   "Paris".toList⟩

/-- A draft whose only question violates the option/answer invariant. -/
def badDraft : QuizDraft :=
  ⟨"Geography".toList, "A short quiz".toList,
   "https://www.youtube.com/watch?v=abc".toList, [badQuestion]⟩

/-- A well-formed question. -/
def okQuestion : QuestionData :=
  ⟨"Q1?".toList,
   Json.arr [Json.str "A".toList, Json.str "B".toList, Json.str "C".toList,
     Json.str "D".toList],
   "A".toList⟩

/-- A two-question draft (for the atomicity scenario). -/
def twoQuestionDraft : QuizDraft :=
  ⟨"T".toList, "".toList, "https://www.youtube.com/watch?v=abc".toList,
   [okQuestion, okQuestion]⟩

/-- A store holding one quiz (id 1) owned by principal 0, with one question
row. -/
def storeOneQuiz : Store :=
  ⟨[⟨1, "T".toList, "".toList, "".toList, 0⟩],
   [⟨1, "Old?".toList, Json.arr [Json.str "A".toList], "A".toList⟩], 2⟩

/-- A pipeline run in which everything up to transcription works and
transcription fails. -/
def envTranscribeFails : PipelineEnv :=
  ⟨"https://youtu.be/abc".toList, true, true, true, false, "{}".toList⟩

/-- A pipeline run in which every stage works but the LLM answers a JSON
array instead of the expected object. -/
def envArrayResponse : PipelineEnv :=
  ⟨"https://youtu.be/abc".toList, true, true, true, true,
   "[\"not\", \"a\", \"quiz\"]".toList⟩

/-- A pipeline run in which every stage works and the LLM answers a
well-shaped quiz object. -/
def envGoodResponse : PipelineEnv :=
  ⟨"https://youtu.be/abc".toList, true, true, true, true,
   ("\x7b\"title\": \"T\", \"description\": \"D\", \"questions\": " ++
    "[\x7b\"question_title\": \"Q?\", \"question_options\": [\"A\",\"B\",\"C\",\"D\"], " ++
    "\"answer\": \"A\"\x7d]\x7d").toList⟩

/-! # Lemmas and claim theorems -/

/-! ## String-utility lemmas -/

theorem splitOnChar_ne_nil (sep : Char) (l : List Char) : splitOnChar sep l ≠ [] := by
  cases l with
  | nil => simp [splitOnChar]
  | cons c rest =>
    rw [splitOnChar]
    split
    · simp
    · split <;> simp

theorem exists_cons_splitOnChar (sep : Char) (l : List Char) :
    ∃ seg segs, splitOnChar sep l = seg :: segs := by
  cases h : splitOnChar sep l with
  | nil => exact absurd h (splitOnChar_ne_nil sep l)
  | cons s ss => exact ⟨s, ss, rfl⟩

/-- `path.lstrip('/').split('/')[0]` (the code's first-segment computation)
agrees with "first nonempty path segment" (the spec's). -/
theorem firstSegment_eq (sep : Char) (l : List Char) :
    (splitOnChar sep (l.dropWhile (· = sep))).headD [] =
      ((splitOnChar sep l).filter (· ≠ [])).headD [] := by
  induction l with
  | nil => simp [splitOnChar]
  | cons c rest ih =>
    obtain ⟨seg, segs, hsp⟩ := exists_cons_splitOnChar sep rest
    by_cases hc : c = sep
    · have h1 : (c :: rest).dropWhile (· = sep) = rest.dropWhile (· = sep) := by
        simp [List.dropWhile_cons, hc]
      have h2 : splitOnChar sep (c :: rest) = [] :: seg :: segs := by
        rw [splitOnChar, hsp]; simp [hc]
      rw [h1, h2, ih, hsp]
      simp
    · have h1 : (c :: rest).dropWhile (· = sep) = c :: rest := by
        simp [List.dropWhile_cons, hc]
      have h2 : splitOnChar sep (c :: rest) = (c :: seg) :: segs := by
        rw [splitOnChar, hsp]; simp [hc]
      rw [h1, h2]
      simp

/-! ## C6: the normalizer follows the specification's rule table -/

/-- **C6.** For every input URL (given here by its parsed components, which is
what the rule table speaks about), `validate_youtube_url` follows the rule
table: a short-link host takes the first path segment into the watch form
(failing on an empty id); on the main video-site host, `watch` takes the id
from the `v` query parameter into the watch form, `shorts` takes the second
path segment into the shorts form, `embed` takes the second path segment into
the watch form (each failing on a missing id), and any other (or no) first
segment fails with UnsupportedFormat; any other host fails with
NotAYouTubeLink. -/
theorem c6_normalize_follows_rule_table (p : ParsedUrl) :
    validateParsed p = ruleTableSpec p := by
  unfold validateParsed ruleTableSpec pathSegments
  rw [firstSegment_eq '/']
  by_cases h1 : containsSub hostShort (lowerCL p.netloc) = true
  · simp only [h1, if_true]
    rfl
  · simp only [Bool.not_eq_true] at h1
    simp only [h1, Bool.false_eq_true, if_false]
    by_cases h2 : (containsSub hostMain (lowerCL p.netloc)
        || containsSub hostNoCookie (lowerCL p.netloc)) = true
    · simp only [h2, if_true]
      cases hsegs : (splitOnChar '/' p.path).filter (· ≠ []) with
      | nil => simp [segWatch, segShorts, segEmbed]
      | cons p0 rest =>
        simp only [List.headD_cons]
        by_cases hw : p0 = segWatch
        · simp [hw, watchUrlOf]
        · simp only [hw, if_false]
          by_cases hs : p0 = segShorts
          · simp only [hs, if_true]
            cases rest with
            | nil => rfl
            | cons vid more => rfl
          · simp only [hs, if_false]
            by_cases he : p0 = segEmbed
            · simp only [he, if_true]
              cases rest with
              | nil => simp [watchUrlOf]
              | cons vid more => simp [watchUrlOf]
            · simp [he]
    · simp only [Bool.not_eq_true] at h2
      simp [h2]

/-! ## C7: idempotence of the normalizer -/

theorem splitFirst_all_ne (sep : Char) (l : List Char) (h : l.all (· ≠ sep) = true) :
    splitFirst sep l = (l, none) := by
  induction l with
  | nil => rfl
  | cons c rest ih =>
    simp only [List.all_cons, Bool.and_eq_true, decide_eq_true_eq] at h
    rw [splitFirst]
    simp [h.1, ih h.2]

theorem splitFirst_append (sep : Char) (l₁ l₂ : List Char) :
    splitFirst sep (l₁ ++ l₂) =
      match splitFirst sep l₁ with
      | (a, some b) => (a, some (b ++ l₂))
      | (a, none) => (a ++ (splitFirst sep l₂).1, (splitFirst sep l₂).2) := by
  induction l₁ with
  | nil => simp [splitFirst]
  | cons c rest ih =>
    rcases hr : splitFirst sep rest with ⟨a, b⟩
    rw [hr] at ih
    simp only [List.cons_append, splitFirst]
    by_cases hc : c = sep
    · simp [hc]
    · cases b with
      | none => simp [hc, ih, hr]
      | some bb => simp [hc, ih, hr]

theorem plain_all_ne (l : List Char) (h : l.all plainChar = true) (c : Char)
    (hc : plainChar c = false) : l.all (· ≠ c) = true := by
  rw [List.all_eq_true] at h ⊢
  intro x hx
  simp only [decide_eq_true_eq]
  intro hxc
  have hp := h x hx
  rw [hxc, hc] at hp
  cases hp

theorem startsWithCL_nil_right (l : List Char) : startsWithCL l [] = true := by
  cases l <;> rfl

theorem startsWithCL_append (l₁ l₂ p : List Char) (h : startsWithCL l₁ p = true) :
    startsWithCL (l₁ ++ l₂) p = true := by
  induction p generalizing l₁ with
  | nil => exact startsWithCL_nil_right _
  | cons b bs ih =>
    cases l₁ with
    | nil => simp [startsWithCL] at h
    | cons a as =>
      simp only [startsWithCL, Bool.and_eq_true, decide_eq_true_eq] at h
      simp only [List.cons_append, startsWithCL, Bool.and_eq_true, decide_eq_true_eq]
      exact ⟨h.1, ih as h.2⟩

theorem splitOnChar_all_ne (sep : Char) (l : List Char) (h : l.all (· ≠ sep) = true) :
    splitOnChar sep l = [l] := by
  induction l with
  | nil => rfl
  | cons c rest ih =>
    simp only [List.all_cons, Bool.and_eq_true, decide_eq_true_eq] at h
    rw [splitOnChar, ih h.2]
    simp [h.1]

theorem unquotePlus_plain (l : List Char) (h : l.all plainChar = true) :
    unquotePlus l = l := by
  induction l with
  | nil => rfl
  | cons c rest ih =>
    simp only [List.all_cons, Bool.and_eq_true] at h
    have hplus : c ≠ '+' := by
      intro hc; rw [hc] at h; exact absurd h.1 (by decide)
    have hpct : c ≠ '%' := by
      intro hc; rw [hc] at h; exact absurd h.1 (by decide)
    have ih2 := ih h.2
    rw [unquotePlus.eq_def]
    split <;> simp_all

theorem watchUrlOf_ok (vid c : List Char) (h : watchUrlOf vid = .ok c) :
    vid ≠ [] ∧ c = watchForm vid := by
  unfold watchUrlOf at h
  by_cases hv : vid = []
  · rw [if_pos hv] at h; cases h
  · rw [if_neg hv] at h
    injection h with h2
    exact ⟨hv, h2.symm⟩

/-- Every canonical URL the normalizer emits is a watch form or a shorts form
with a nonempty id. -/
theorem validateParsed_ok_shape (p : ParsedUrl) (c : List Char)
    (h : validateParsed p = .ok c) :
    ∃ id, id ≠ [] ∧ (c = watchForm id ∨ c = shortsForm id) := by
  simp only [validateParsed] at h
  by_cases h1 : containsSub hostShort (lowerCL p.netloc) = true
  · rw [if_pos h1] at h
    obtain ⟨hne, hc⟩ := watchUrlOf_ok _ _ h
    exact ⟨_, hne, Or.inl hc⟩
  · rw [if_neg h1] at h
    by_cases h2 : (containsSub hostMain (lowerCL p.netloc)
        || containsSub hostNoCookie (lowerCL p.netloc)) = true
    · rw [if_pos h2] at h
      cases hsegs : (splitOnChar '/' p.path).filter (· ≠ []) with
      | nil => simp only [hsegs] at h; cases h
      | cons p0 rest =>
        simp only [hsegs] at h
        by_cases hw : p0 = segWatch
        · rw [if_pos hw] at h
          obtain ⟨hne, hc⟩ := watchUrlOf_ok _ _ h
          exact ⟨_, hne, Or.inl hc⟩
        · rw [if_neg hw] at h
          by_cases hs : p0 = segShorts
          · rw [if_pos hs] at h
            cases rest with
            | nil => cases h
            | cons vid more =>
              dsimp only at h
              by_cases hv : vid = []
              · rw [if_pos hv] at h; cases h
              · rw [if_neg hv] at h
                injection h with h2
                exact ⟨vid, hv, Or.inr h2.symm⟩
          · rw [if_neg hs] at h
            by_cases he : p0 = segEmbed
            · rw [if_pos he] at h
              cases rest with
              | nil =>
                obtain ⟨hne, hc⟩ := watchUrlOf_ok _ _ h
                exact ⟨_, hne, Or.inl hc⟩
              | cons vid more =>
                obtain ⟨hne, hc⟩ := watchUrlOf_ok _ _ h
                exact ⟨_, hne, Or.inl hc⟩
            · rw [if_neg he] at h; cases h
    · rw [if_neg h2] at h; cases h

theorem urlparse_watchForm (id : List Char) (h : id.all plainChar = true) :
    urlparse (watchForm id) = ⟨schemeHttps, netlocYtb, pathWatch, 'v' :: '=' :: id⟩ := by
  have hfrag : splitFirst '#' (watchStem ++ id) = (watchStem ++ id, none) := by
    apply splitFirst_all_ne
    rw [List.all_append]
    exact Bool.and_eq_true_iff.mpr ⟨by decide, plain_all_ne id h '#' (by decide)⟩
  have hcolon : splitFirst ':' (watchStem ++ id) = (schemeHttps, some (colonTailW ++ id)) := by
    rw [splitFirst_append ':' watchStem id,
      (by decide : splitFirst ':' watchStem = (schemeHttps, some colonTailW))]
  have hsw : startsWithCL (colonTailW ++ id) ['/', '/'] = true :=
    startsWithCL_append _ _ _ (by decide)
  have hdrop : (colonTailW ++ id).drop 2 = hostPathW ++ id := by
    rw [List.drop_append_of_le_length (by decide),
      (by decide : colonTailW.drop 2 = hostPathW)]
  have htake : (hostPathW ++ id).takeWhile (fun c => !netlocStop c) = netlocYtb := by
    rw [List.takeWhile_append, if_neg (by decide)]
    decide
  have hdropw : (hostPathW ++ id).dropWhile (fun c => !netlocStop c) = pathQW ++ id := by
    rw [List.dropWhile_append, if_neg (by decide),
      (by decide : hostPathW.dropWhile (fun c => !netlocStop c) = pathQW)]
  have hq : splitFirst '?' (pathQW ++ id) = (pathWatch, some (['v', '='] ++ id)) := by
    rw [splitFirst_append '?' pathQW id,
      (by decide : splitFirst '?' pathQW = (pathWatch, some ['v', '=']))]
  simp only [urlparse, watchForm, hfrag, hcolon,
    (by decide : schemeOk schemeHttps = true), (by decide : lowerCL schemeHttps = schemeHttps),
    hsw, hdrop, htake, hdropw, hq, List.cons_append, if_true, List.nil_append]

theorem urlparse_shortsForm (id : List Char) (h : id.all plainChar = true) :
    urlparse (shortsForm id) = ⟨schemeHttps, netlocYtb, pathShortsSlash ++ id, []⟩ := by
  have hfrag : splitFirst '#' (shortsStem ++ id) = (shortsStem ++ id, none) := by
    apply splitFirst_all_ne
    rw [List.all_append]
    exact Bool.and_eq_true_iff.mpr ⟨by decide, plain_all_ne id h '#' (by decide)⟩
  have hcolon : splitFirst ':' (shortsStem ++ id) = (schemeHttps, some (colonTailS ++ id)) := by
    rw [splitFirst_append ':' shortsStem id,
      (by decide : splitFirst ':' shortsStem = (schemeHttps, some colonTailS))]
  have hsw : startsWithCL (colonTailS ++ id) ['/', '/'] = true :=
    startsWithCL_append _ _ _ (by decide)
  have hdrop : (colonTailS ++ id).drop 2 = hostPathS ++ id := by
    rw [List.drop_append_of_le_length (by decide),
      (by decide : colonTailS.drop 2 = hostPathS)]
  have htake : (hostPathS ++ id).takeWhile (fun c => !netlocStop c) = netlocYtb := by
    rw [List.takeWhile_append, if_neg (by decide)]
    decide
  have hdropw : (hostPathS ++ id).dropWhile (fun c => !netlocStop c) = pathShortsSlash ++ id := by
    rw [List.dropWhile_append, if_neg (by decide),
      (by decide : hostPathS.dropWhile (fun c => !netlocStop c) = pathShortsSlash)]
  have hq : splitFirst '?' (pathShortsSlash ++ id) = (pathShortsSlash ++ id, none) := by
    apply splitFirst_all_ne
    rw [List.all_append]
    exact Bool.and_eq_true_iff.mpr ⟨by decide, plain_all_ne id h '?' (by decide)⟩
  simp only [urlparse, shortsForm, hfrag, hcolon,
    (by decide : schemeOk schemeHttps = true), (by decide : lowerCL schemeHttps = schemeHttps),
    hsw, hdrop, htake, hdropw, hq, if_true]

theorem qsFirstV_plain (id : List Char) (hne : id ≠ []) (h : id.all plainChar = true) :
    qsFirstV ('v' :: '=' :: id) = id := by
  have hsplit : splitOnChar '&' ('v' :: '=' :: id) = ['v' :: '=' :: id] := by
    apply splitOnChar_all_ne
    simp only [List.all_cons, Bool.and_eq_true, decide_eq_true_eq]
    exact ⟨by decide, by decide, plain_all_ne id h '&' (by decide)⟩
  have hsf : splitFirst '=' ('v' :: '=' :: id) = (['v'], some id) := by
    simp [splitFirst]
  unfold qsFirstV parseQsl
  rw [hsplit]
  simp only [List.foldr_cons, List.foldr_nil, hsf]
  simp only [reduceCtorEq, if_false, hne, unquotePlus_plain id h,
    (by decide : unquotePlus ['v'] = ['v'])]
  simp [List.find?]

theorem validateParsed_watchParsed (s id : List Char) (hne : id ≠ [])
    (h : id.all plainChar = true) :
    validateParsed ⟨s, netlocYtb, pathWatch, 'v' :: '=' :: id⟩ = .ok (watchForm id) := by
  simp only [validateParsed]
  rw [if_neg (by decide : ¬(containsSub hostShort (lowerCL netlocYtb) = true))]
  rw [if_pos (by decide :
    (containsSub hostMain (lowerCL netlocYtb) || containsSub hostNoCookie (lowerCL netlocYtb)) = true)]
  rw [(by decide : (splitOnChar '/' pathWatch).filter (· ≠ []) = [segWatch])]
  dsimp only
  rw [if_pos rfl, qsFirstV_plain id hne h]
  unfold watchUrlOf
  rw [if_neg hne]

theorem validateParsed_shortsParsed (s id : List Char) (hne : id ≠ [])
    (h : id.all plainChar = true) :
    validateParsed ⟨s, netlocYtb, pathShortsSlash ++ id, []⟩ = .ok (shortsForm id) := by
  have hid : splitOnChar '/' id = [id] :=
    splitOnChar_all_ne '/' id (plain_all_ne id h '/' (by decide))
  have hsegsplit : splitOnChar '/' (pathShortsSlash ++ id) =
      [[], ['s', 'h', 'o', 'r', 't', 's'], id] := by
    rw [(by decide : pathShortsSlash = ['/', 's', 'h', 'o', 'r', 't', 's', '/'])]
    simp [splitOnChar, hid]
  simp only [validateParsed]
  rw [if_neg (by decide : ¬(containsSub hostShort (lowerCL netlocYtb) = true))]
  rw [if_pos (by decide :
    (containsSub hostMain (lowerCL netlocYtb) || containsSub hostNoCookie (lowerCL netlocYtb)) = true)]
  rw [hsegsplit]
  simp only [List.filter_cons, List.filter_nil]
  simp only [(by decide : (decide (([] : List Char) ≠ [])) = false),
    (by decide : (decide ((['s', 'h', 'o', 'r', 't', 's'] : List Char) ≠ [])) = true),
    Bool.false_eq_true, if_false, if_true]
  rw [(by simp [hne] : (decide (id ≠ [])) = true)]
  rw [if_neg (by decide : ¬((['s', 'h', 'o', 'r', 't', 's'] : List Char) = segWatch))]
  rw [if_pos (by decide : (['s', 'h', 'o', 'r', 't', 's'] : List Char) = segShorts)]
  simp only [eq_self_iff_true, if_true]
  rw [if_neg hne]

/-- **C7 (counterexample).** The claim fails as stated: normalize succeeds on
`https://youtu.be/a&b` with canonical result
`https://www.youtube.com/watch?v=a&b`, but normalizing that canonical URL
parses its query and returns `https://www.youtube.com/watch?v=a` — a
different canonical URL (the id is truncated at the `&`). -/
theorem c7_counterexample :
    validate_youtube_url "https://youtu.be/a&b".toList =
        .ok "https://www.youtube.com/watch?v=a&b".toList ∧
    validate_youtube_url "https://www.youtube.com/watch?v=a&b".toList =
        .ok "https://www.youtube.com/watch?v=a".toList ∧
    "https://www.youtube.com/watch?v=a".toList ≠
        "https://www.youtube.com/watch?v=a&b".toList := by
  exact ⟨by rfl, by rfl, by decide⟩

/-- **C7 (amended).** Idempotence holds for the URLs the normalizer is meant
for: every successful normalization yields a watch form or a shorts form with
a nonempty id, and whenever that id consists of ordinary id characters
(alphanumerics, `-`, `_` — no query/URL metacharacters such as `&`, `%`, `+`),
re-normalizing the canonical URL succeeds and returns it unchanged. -/
theorem c7_normalize_idempotent_on_plain_ids (u c : List Char)
    (h : validate_youtube_url u = .ok c) :
    ∃ id, id ≠ [] ∧ (c = watchForm id ∨ c = shortsForm id) ∧
      (id.all plainChar = true → validate_youtube_url c = .ok c) := by
  obtain ⟨id, hne, hshape⟩ := validateParsed_ok_shape _ _ h
  refine ⟨id, hne, hshape, fun hplain => ?_⟩
  cases hshape with
  | inl hw =>
    rw [hw]
    unfold validate_youtube_url
    rw [urlparse_watchForm id hplain]
    exact validateParsed_watchParsed _ id hne hplain
  | inr hs =>
    rw [hs]
    unfold validate_youtube_url
    rw [urlparse_shortsForm id hplain]
    exact validateParsed_shortsParsed _ id hne hplain

/-- Witness for C7 (amended) at `https://youtu.be/abc123`: normalize of the
canonical result returns it unchanged. -/
theorem c7_idempotence_witness :
    validate_youtube_url "https://www.youtube.com/watch?v=abc123".toList =
      .ok "https://www.youtube.com/watch?v=abc123".toList := by
  obtain ⟨id, hne, hshape, hiter⟩ :=
    c7_normalize_idempotent_on_plain_ids "https://youtu.be/abc123".toList
      "https://www.youtube.com/watch?v=abc123".toList (by rfl)
  cases hshape with
  | inl hw =>
    have hid : id = "abc123".toList := by
      rw [(by decide : "https://www.youtube.com/watch?v=abc123".toList =
        watchForm "abc123".toList)] at hw
      exact (List.append_cancel_left (watchForm.eq_1 _ ▸ watchForm.eq_1 _ ▸ hw)).symm
    rw [hid] at hiter
    exact hiter (by decide)
  | inr hs =>
    exfalso
    have h31 : ("https://www.youtube.com/watch?v=abc123".toList).take 31 = shortsStem := by
      rw [hs]
      unfold shortsForm
      rw [List.take_append_of_le_length (by decide)]
      decide
    exact absurd h31 (by decide)

/-! ## C1: what draft validation actually accepts -/

/-- **C1 (counterexample).** A draft whose question has three options (two
equal) and an answer not among them passes validation and is fully persisted:
the quiz row and the question row are stored, refuting "rejected wholesale
with zero rows stored". -/
theorem c1_counterexample :
    specQuestionInvariant badQuestion = false ∧
    (createQuizPersist emptyStore 7 badDraft (fun _ => false)).1 = PersistResult.saved 0 ∧
    (createQuizPersist emptyStore 7 badDraft (fun _ => false)).2.quizzes.length = 1 ∧
    (createQuizPersist emptyStore 7 badDraft (fun _ => false)).2.questions.length = 1 := by
  exact ⟨by decide, by rfl, by rfl, by rfl⟩

theorem insertQuestions_no_fail (qid : Nat) (qs : List QuestionData) (i : Nat) (st : Store) :
    insertQuestions qid (fun _ => false) i st qs =
      (true, ⟨st.quizzes, st.questions ++ qs.map (questionRowOf qid), st.nextId⟩) := by
  induction qs generalizing i st with
  | nil => simp [insertQuestions]
  | cons q qs ih =>
    simp [insertQuestions, ih]

/-- **C1 (amended).** Acceptance of a draft requires only the per-field checks
DRF derives from the models (non-blank trimmed `title` ≤ 200, well-formed or
blank `video_url`, and per question non-blank trimmed `question_title` and
`answer` ≤ 500 with any JSON `question_options`): a draft failing them is
rejected with the store untouched, and a draft passing them — the
4-distinct-options and answer-in-options conditions not being checked
anywhere — is accepted and persisted in full. -/
theorem c1_validation_is_field_checks_only (st : Store) (user : Nat) (d : QuizDraft) :
    (draftFieldsOk d = false →
      createQuizPersist st user d (fun _ => false) = (.invalid, st)) ∧
    (draftFieldsOk d = true →
      createQuizPersist st user d (fun _ => false) =
        (.saved st.nextId,
          ⟨st.quizzes ++ [⟨st.nextId, stripWs d.title, stripWs d.description,
              stripWs d.video_url, user⟩],
           st.questions ++ d.questions.map (questionRowOf st.nextId), st.nextId + 1⟩)) := by
  constructor
  · intro hbad
    unfold createQuizPersist
    rw [if_neg (by simp [hbad])]
  · intro hok
    unfold createQuizPersist serializerCreate
    rw [if_pos hok]
    simp [insertQuestions_no_fail]

/-- Witness for C1 (amended): a field-check-passing draft is persisted with
its quiz row and its question row. -/
theorem c1_witness :
    createQuizPersist emptyStore 7 badDraft (fun _ => false) =
      (.saved 0,
        ⟨[⟨0, "Geography".toList, "A short quiz".toList,
            "https://www.youtube.com/watch?v=abc".toList, 7⟩],
         [questionRowOf 0 badQuestion], 1⟩) :=
  (c1_validation_is_field_checks_only emptyStore 7 badDraft).2 (by decide)

/-! ## C2: quiz creation is not atomic -/

/-- **C2.** `QuizCreationSerializer.create` runs outside any transaction,
although its own docstring promises "a single transaction": with a valid
two-question draft whose second question insert fails, the call raises — yet
the quiz row and the first question row remain stored, refuting "all rows or
none". -/
theorem c2_partial_persistence_on_insert_failure :
    draftFieldsOk twoQuestionDraft = true ∧
    (createQuizPersist emptyStore 3 twoQuestionDraft (fun i => i == 1)).1 =
      PersistResult.dbError ∧
    (createQuizPersist emptyStore 3 twoQuestionDraft (fun i => i == 1)).2.quizzes.length = 1 ∧
    (createQuizPersist emptyStore 3 twoQuestionDraft (fun i => i == 1)).2.questions.length = 1 := by
  exact ⟨by decide, by rfl, by rfl, by rfl⟩

/-! ## C3 and C4: ownership isolation and the status it uses -/

theorem getByIdAndUser_eq_none (st : Store) (qid caller : Nat)
    (h : ∀ x ∈ st.quizzes, x.id = qid → x.user ≠ caller) :
    getByIdAndUser st qid caller = none := by
  unfold getByIdAndUser
  rw [List.find?_eq_none]
  intro x hx hp
  simp only [Bool.and_eq_true, beq_iff_eq] at hp
  exact h x hx hp.1 hp.2

/-- **C3.** Ownership isolation: when a quiz with id `qid` belongs to
principal `A` (and every quiz under that id does), a different principal `B`
gets a NotFound — the quiz is neither returned, nor updated, nor deleted, and
its content is never exposed (the lookup itself filters by owner, so the
response is 404 in every case). -/
theorem c3_ownership_isolation (st : Store) (A B qid : Nat) (qz : QuizRow) (p : PatchData)
    (hmem : qz ∈ st.quizzes) (hid : qz.id = qid) (hA : qz.user = A)
    (hall : ∀ x ∈ st.quizzes, x.id = qid → x.user = A) (hBA : B ≠ A) :
    singleQuizGet st B qid = (404, none) ∧
    singleQuizPatch st B qid p = (.notFound404, st) ∧
    singleQuizDelete st B qid = (404, st) := by
  have hfind : getByIdAndUser st qid B = none :=
    getByIdAndUser_eq_none st qid B
      (fun x hx h2 h3 => hBA (h3.symm.trans (hall x hx h2)))
  refine ⟨?_, ?_, ?_⟩ <;> simp [singleQuizGet, singleQuizPatch, singleQuizDelete, hfind]

/-- Witness for C3: principal 5 against the store whose quiz 1 belongs to
principal 0. -/
theorem c3_witness :
    singleQuizGet storeOneQuiz 5 1 = (404, none) ∧
    singleQuizPatch storeOneQuiz 5 1 ⟨some "X".toList, none, none, none⟩ =
      (.notFound404, storeOneQuiz) ∧
    singleQuizDelete storeOneQuiz 5 1 = (404, storeOneQuiz) :=
  c3_ownership_isolation storeOneQuiz 0 5 1 ⟨1, "T".toList, "".toList, "".toList, 0⟩
    ⟨some "X".toList, none, none, none⟩ (by decide) rfl rfl (by decide) (by decide)

/-- **C4 (counterexample).** Quiz 1 exists in the store (row
`⟨1, "T", "", "", owner 0⟩`) and is owned by principal 0, yet a GET by
principal 1 answers 404 — not the 403 the claim requires for "exists but not
owned". -/
theorem c4_counterexample :
    (⟨1, "T".toList, "".toList, "".toList, 0⟩ : QuizRow) ∈ storeOneQuiz.quizzes ∧
    (0 : Nat) ≠ 1 ∧
    singleQuizGet storeOneQuiz 1 1 = (404, none) := by
  exact ⟨by decide, by decide, by rfl⟩

/-- **C4 (amended).** A GET of a quiz id that is absent — or present but
owned by someone else — answers 404 either way: the lookup already filters by
the requesting user, so `Quiz.DoesNotExist` is raised in both situations and
the 403 branch of the view is unreachable. -/
theorem c4_get_foreign_or_absent_is_404 (st : Store) (caller qid : Nat)
    (h : ∀ x ∈ st.quizzes, x.id = qid → x.user ≠ caller) :
    singleQuizGet st caller qid = (404, none) := by
  simp [singleQuizGet, getByIdAndUser_eq_none st qid caller h]

/-- Witness for C4 (amended) at a foreign-owned id. -/
theorem c4_witness : singleQuizGet storeOneQuiz 9 1 = (404, none) :=
  c4_get_foreign_or_absent_is_404 storeOneQuiz 9 1 (by decide)

/-! ## C5: the transient audio file outlives failing runs -/

/-- **C5 (counterexample).** A run that acquired the audio file and then
failed at transcription ends with the file still on disk — the cleanup call
sits on the success path only. -/
theorem c5_counterexample :
    fileCreated envTranscribeFails = true ∧
    (createQuizPost envTranscribeFails).response = .uncaught .transcriptionError ∧
    (createQuizPost envTranscribeFails).audioFileExists = true := by
  exact ⟨by rfl, by rfl, by rfl⟩

set_option maxRecDepth 16000 in
/-- **C5 (amended).** Once the transient audio file exists, it is removed
exactly on the runs that also get through transcription and quiz generation
(where the one `cleanup_temp_files` call is reached); a failure at
transcription or generation leaves the file behind. -/
theorem c5_cleanup_exactly_past_generation (env : PipelineEnv) :
    (fileCreated env = true → env.transcribeWorks = true →
      (jsonLoads env.llmResponse).isSome = true →
      (createQuizPost env).audioFileExists = false) ∧
    (fileCreated env = true →
      (env.transcribeWorks = false ∨ (jsonLoads env.llmResponse).isSome = false) →
      (createQuizPost env).audioFileExists = true) := by
  obtain ⟨url, f1, f2, dl, tw, resp⟩ := env
  simp only [fileCreated, createQuizPost, create_quiz_from_transcript]
  rcases hv : validate_youtube_url url with e | c
  · simp
  · cases hl : jsonLoads resp
    · cases f1 <;> cases f2 <;> cases dl <;> cases tw <;> simp_all
    · cases f1 <;> cases f2 <;> cases dl <;> cases tw <;> simp_all

set_option maxRecDepth 16000 in
/-- Witness for C5 (amended): the file is gone after a fully successful run,
and still present after a run failing at transcription. -/
theorem c5_witness :
    (createQuizPost envGoodResponse).audioFileExists = false ∧
    (createQuizPost envTranscribeFails).audioFileExists = true :=
  ⟨(c5_cleanup_exactly_past_generation envGoodResponse).1 (by rfl) (by rfl) (by rfl),
   (c5_cleanup_exactly_past_generation envTranscribeFails).2 (by rfl) (Or.inl (by rfl))⟩

/-! ## C8: the acquirer's error contract -/

/-- **C8.** `download_audio_from_youtube` raises iff neither `ffmpeg` nor
`ffmpeg.exe` is on the search path, and then it has not attempted any
download; every download failure is caught and logged inside the function and
never re-raised to the caller. -/
theorem c8_acquirer_error_contract (env : AcqEnv) :
    ((download_audio_from_youtube env).1.isSome ↔
      (env.whichFfmpeg = false ∧ env.whichFfmpegExe = false)) ∧
    ((download_audio_from_youtube env).1.isSome →
      (download_audio_from_youtube env).2.downloadAttempted = false) ∧
    ((env.whichFfmpeg = true ∨ env.whichFfmpegExe = true) → env.downloadRaises = true →
      download_audio_from_youtube env = (none, ⟨true, true, false⟩)) := by
  obtain ⟨f1, f2, dr⟩ := env
  cases f1 <;> cases f2 <;> cases dr <;> decide

/-- Witness for C8: toolchain present, download fails — no error raised, the
failure is logged, no file exists. -/
theorem c8_witness :
    download_audio_from_youtube ⟨true, false, true⟩ = (none, ⟨true, true, false⟩) :=
  (c8_acquirer_error_contract ⟨true, false, true⟩).2.2 (Or.inl rfl) rfl

/-! ## C9: partial update and the nested `questions` field -/

/-- **C9.** An owner PATCH that supplies `questions` does not replace the
question set: DRF's default `ModelSerializer.update` (the serializer defines
no `update` of its own, despite its docstring advertising update support)
raises an AssertionError on writable nested fields, so the request dies with
a server error and the stored questions are untouched.  A PATCH without
`questions` updates the supplied flat fields and leaves the questions
untouched, as the claim says. -/
theorem c9_nested_questions_update_crashes :
    patchFieldsOk ⟨none, none, none, some [okQuestion]⟩ = true ∧
    singleQuizPatch storeOneQuiz 0 1 ⟨none, none, none, some [okQuestion]⟩ =
      (.serverError500, storeOneQuiz) ∧
    singleQuizPatch storeOneQuiz 0 1 ⟨some "New title".toList, none, none, none⟩ =
      (.ok200,
        ⟨[⟨1, "New title".toList, "".toList, "".toList, 0⟩],
         storeOneQuiz.questions, storeOneQuiz.nextId⟩) := by
  exact ⟨by decide, by rfl, by rfl⟩

/-! ## C10: the generator guarantees parsability, not shape -/

/-- **C10.** For the valid-JSON model response `["not", "a", "quiz"]` — which
is not an object with the keys `title`/`description`/`questions` — the
generator returns the parsed value unchanged, and the create endpoint's
unguarded `quiz_data['title']` subscript then raises an uncaught error rather
than producing the structured validation failure. -/
theorem c10_generator_returns_unvalidated_json :
    jsonLoads "[\"not\", \"a\", \"quiz\"]".toList =
      some (Json.arr [Json.str "not".toList, Json.str "a".toList, Json.str "quiz".toList]) ∧
    create_quiz_from_transcript "[\"not\", \"a\", \"quiz\"]".toList =
      .ok (Json.arr [Json.str "not".toList, Json.str "a".toList, Json.str "quiz".toList]) ∧
    hasQuizKeys
      (Json.arr [Json.str "not".toList, Json.str "a".toList, Json.str "quiz".toList]) = false ∧
    (createQuizPost envArrayResponse).response = .uncaught (.keyError "title".toList) := by
  exact ⟨by rfl, by rfl, by rfl, by rfl⟩

end Quizly
